import Mathlib

/-!
Shallow embedding of the segmentation-lab virtual-background core:
the metrics aggregator, the MediaPipe/BodyPix adapter state machines,
the background-model factory, and the capture loop of the virtual
background service, together with proofs of the specified properties.
-/

namespace SegLab

/-! ## Metrics aggregator

Embeds the performance-tracking code of the virtual background service
(updatePerformanceMetrics, resetMetrics, updateMetricsDisplay,
getPerformanceMetrics).  Times are rationals; JavaScript number
truthiness on a time value is modelled as being nonzero. -/

/-- Window capacity: const MAX_MEASUREMENTS = 30. -/
def MAX_MEASUREMENTS : Nat := 30

/-- One rolling-window insertion: xs.push(x); if (xs.length > MAX_MEASUREMENTS) xs.shift().
Appends at the back and evicts the front element when over capacity. -/
def pushWindow (xs : List ℚ) (x : ℚ) : List ℚ :=
  let ys := xs ++ [x]
  if ys.length > MAX_MEASUREMENTS then ys.tail else ys

/-- The last n elements of a list (the most recent samples, pushes being appends). -/
def takeLast (n : Nat) (xs : List ℚ) : List ℚ :=
  xs.drop (xs.length - n)

/-- The mutable performance-tracking variables of the virtual background service:
frameTimes, segmentationTimes, lastFrameTime, totalProcessedFrames,
totalSegmentationTime, totalFrameProcessingTime. -/
structure MetricsState where
  frameTimes : List ℚ
  segmentationTimes : List ℚ
  lastFrameTime : ℚ
  totalProcessedFrames : Nat
  totalSegmentationTime : ℚ
  totalFrameProcessingTime : ℚ
  deriving Repr, DecidableEq

/-- The initial values of the tracking variables; resetMetrics restores them
(sessionStartTime is not modelled). -/
def initMetrics : MetricsState :=
  { frameTimes := []
    segmentationTimes := []
    lastFrameTime := 0
    totalProcessedFrames := 0
    totalSegmentationTime := 0
    totalFrameProcessingTime := 0 }

/-- updatePerformanceMetrics(segmentationTime, frameTime), with now the value
performance.now() returns during the call.  Pushes the segmentation time into
its window, pushes the inter-frame delta when lastFrameTime is truthy
(nonzero), and accumulates the session totals. -/
def updatePerformanceMetrics (s : MetricsState) (segmentationTime frameTime now : ℚ) :
    MetricsState :=
  { frameTimes :=
      if s.lastFrameTime ≠ 0 then pushWindow s.frameTimes (now - s.lastFrameTime)
      else s.frameTimes
    segmentationTimes := pushWindow s.segmentationTimes segmentationTime
    lastFrameTime := now
    totalProcessedFrames := s.totalProcessedFrames + 1
    totalSegmentationTime := s.totalSegmentationTime + segmentationTime
    totalFrameProcessingTime := s.totalFrameProcessingTime + frameTime }

/-- One recorded sample: (segmentationTime, frameTime, timestamp of the call). -/
structure Sample where
  segmentationTime : ℚ
  frameTime : ℚ
  now : ℚ
  deriving Repr, DecidableEq

/-- Record a list of samples in order. -/
def recordAll (s : MetricsState) (samples : List Sample) : MetricsState :=
  samples.foldl (fun acc p => updatePerformanceMetrics acc p.segmentationTime p.frameTime p.now) s

/-- The inter-frame deltas generated by a run of timestamps, starting from
a given lastFrameTime value (a delta is only recorded when the previous
timestamp is truthy). -/
def interDeltas (last : ℚ) (ts : List ℚ) : List ℚ :=
  match ts with
  | [] => []
  | t :: rest => (if last ≠ 0 then [t - last] else []) ++ interDeltas t rest

/-- The mean of the inter-frame window, 0 when the window is empty
(matches the avgFrameTime computation in updateMetricsDisplay). -/
def avgFrameTime (s : MetricsState) : ℚ :=
  if s.frameTimes.length > 0 then s.frameTimes.sum / s.frameTimes.length else 0

/-- The fps value updateMetricsDisplay shows: the targetFps-clamped value of
1000/avgFrameTime, with JavaScript truthiness on targetFps and avgFrameTime. -/
def displayFps (s : MetricsState) (targetFps : ℚ) : ℚ :=
  if targetFps ≠ 0 then
    min targetFps (if avgFrameTime s ≠ 0 then 1000 / avgFrameTime s else 0)
  else
    if avgFrameTime s ≠ 0 then 1000 / avgFrameTime s else 0

/-! ### Window lemmas -/

theorem pushWindow_takeLast (zs : List ℚ) (x : ℚ) :
    pushWindow (takeLast MAX_MEASUREMENTS zs) x = takeLast MAX_MEASUREMENTS (zs ++ [x]) := by
  rcases Nat.lt_or_ge zs.length MAX_MEASUREMENTS with h | h
  · -- under capacity: append without eviction
    have h0 : zs.length - MAX_MEASUREMENTS = 0 := Nat.sub_eq_zero_of_le h.le
    have h1 : zs.length + 1 - MAX_MEASUREMENTS = 0 := Nat.sub_eq_zero_of_le h
    unfold pushWindow takeLast
    simp only [h0, List.drop_zero, List.length_append, List.length_cons, List.length_nil,
      Nat.zero_add]
    have hno : ¬ zs.length + 1 > MAX_MEASUREMENTS := by omega
    simp only [hno, if_false, h1, List.drop_zero]
  · -- at or over capacity: the oldest element is evicted
    have hlen : (takeLast MAX_MEASUREMENTS zs).length = MAX_MEASUREMENTS := by
      unfold takeLast
      rw [List.length_drop]
      omega
    have h30 : (0:Nat) < MAX_MEASUREMENTS := by decide
    have hz : takeLast MAX_MEASUREMENTS zs ≠ [] := by
      intro hnil
      rw [hnil] at hlen
      simp only [List.length_nil] at hlen
      omega
    unfold pushWindow
    have hgt : (takeLast MAX_MEASUREMENTS zs ++ [x]).length > MAX_MEASUREMENTS := by
      rw [List.length_append, hlen]
      simp
    simp only [hgt, if_true]
    rw [List.tail_append_singleton_of_ne_nil hz]
    unfold takeLast
    rw [List.tail_drop]
    have harith : (zs ++ [x]).length - MAX_MEASUREMENTS = (zs.length - MAX_MEASUREMENTS) + 1 := by
      rw [List.length_append]
      simp only [List.length_cons, List.length_nil]
      omega
    rw [harith, List.drop_append_of_le_length (by omega)]

theorem foldl_pushWindow_eq_takeLast (xs : List ℚ) :
    xs.foldl pushWindow [] = takeLast MAX_MEASUREMENTS xs := by
  induction xs using List.reverseRecOn with
  | nil => simp [takeLast]
  | append_singleton ys y ih =>
      rw [List.foldl_append, List.foldl_cons, List.foldl_nil, ih, pushWindow_takeLast]

theorem takeLast_length_le (n : Nat) (xs : List ℚ) : (takeLast n xs).length ≤ n := by
  unfold takeLast
  rw [List.length_drop]
  omega

theorem takeLast_length_of_le (n : Nat) (xs : List ℚ) (h : n ≤ xs.length) :
    (takeLast n xs).length = n := by
  unfold takeLast
  rw [List.length_drop]
  omega

theorem recordAll_segmentationTimes (samples : List Sample) : ∀ s : MetricsState,
    (recordAll s samples).segmentationTimes =
      (samples.map Sample.segmentationTime).foldl pushWindow s.segmentationTimes := by
  induction samples with
  | nil => intro s; rfl
  | cons p ps ih =>
      intro s
      show (recordAll (updatePerformanceMetrics s p.segmentationTime p.frameTime p.now)
        ps).segmentationTimes = _
      rw [ih]
      rfl

theorem recordAll_frameTimes (samples : List Sample) : ∀ s : MetricsState,
    (recordAll s samples).frameTimes =
      (interDeltas s.lastFrameTime (samples.map Sample.now)).foldl pushWindow s.frameTimes := by
  induction samples with
  | nil => intro s; rfl
  | cons p ps ih =>
      intro s
      show (recordAll (updatePerformanceMetrics s p.segmentationTime p.frameTime p.now)
        ps).frameTimes = _
      rw [ih]
      by_cases h : s.lastFrameTime ≠ 0
      · simp [updatePerformanceMetrics, interDeltas, h, List.foldl_append]
      · simp [updatePerformanceMetrics, interDeltas, h, List.foldl_append]

theorem interDeltas_length (ts : List ℚ) : ∀ last : ℚ, (∀ t ∈ ts, t ≠ 0) →
    (interDeltas last ts).length = if last ≠ 0 then ts.length else ts.length - 1 := by
  induction ts with
  | nil =>
      intro last _
      simp [interDeltas]
  | cons t rest ih =>
      intro last h
      have ht : t ≠ 0 := h t (by simp)
      have hr : ∀ u ∈ rest, u ≠ 0 := fun u hu => h u (by simp [hu])
      by_cases hl : last ≠ 0
      · simp [interDeltas, hl, ih t hr, ht]
      · simp [interDeltas, hl, ih t hr, ht]

/-- C2: after more than MAX_MEASUREMENTS samples are recorded, the segmentation-latency
window and the inter-frame-delta window each hold exactly the most recent
MAX_MEASUREMENTS entries (oldest evicted first, by the shift on overflow),
and along every prefix of the run neither window ever exceeds capacity. -/
theorem metrics_window_bound (samples : List Sample)
    (hpos : ∀ p ∈ samples, p.now ≠ 0) (hlen : MAX_MEASUREMENTS < samples.length) :
    (recordAll initMetrics samples).segmentationTimes =
        takeLast MAX_MEASUREMENTS (samples.map Sample.segmentationTime) ∧
    (recordAll initMetrics samples).segmentationTimes.length = MAX_MEASUREMENTS ∧
    (recordAll initMetrics samples).frameTimes =
        takeLast MAX_MEASUREMENTS (interDeltas 0 (samples.map Sample.now)) ∧
    (recordAll initMetrics samples).frameTimes.length = MAX_MEASUREMENTS ∧
    (∀ pre, pre <+: samples →
      (recordAll initMetrics pre).segmentationTimes.length ≤ MAX_MEASUREMENTS ∧
      (recordAll initMetrics pre).frameTimes.length ≤ MAX_MEASUREMENTS) := by
  have hnow : ∀ t ∈ samples.map Sample.now, t ≠ 0 := by
    intro t ht
    rcases List.mem_map.mp ht with ⟨p, hp, rfl⟩
    exact hpos p hp
  have e1 : initMetrics.segmentationTimes = [] := rfl
  have e2 : initMetrics.frameTimes = [] := rfl
  have e3 : initMetrics.lastFrameTime = 0 := rfl
  have hseg : (recordAll initMetrics samples).segmentationTimes =
      takeLast MAX_MEASUREMENTS (samples.map Sample.segmentationTime) := by
    rw [recordAll_segmentationTimes, e1, foldl_pushWindow_eq_takeLast]
  have hdl : (interDeltas 0 (samples.map Sample.now)).length = samples.length - 1 := by
    rw [interDeltas_length _ 0 hnow]
    simp
  have hfr : (recordAll initMetrics samples).frameTimes =
      takeLast MAX_MEASUREMENTS (interDeltas 0 (samples.map Sample.now)) := by
    rw [recordAll_frameTimes, e2, e3, foldl_pushWindow_eq_takeLast]
  refine ⟨hseg, ?_, hfr, ?_, ?_⟩
  · rw [hseg]
    exact takeLast_length_of_le _ _ (by rw [List.length_map]; omega)
  · rw [hfr]
    exact takeLast_length_of_le _ _ (by rw [hdl]; omega)
  · intro pre _
    constructor
    · rw [recordAll_segmentationTimes, e1, foldl_pushWindow_eq_takeLast]
      exact takeLast_length_le _ _
    · rw [recordAll_frameTimes, e2, e3, foldl_pushWindow_eq_takeLast]
      exact takeLast_length_le _ _

/-- A concrete run of 31 samples with nonzero timestamps. -/
def sampleRun : List Sample :=
  List.replicate 31 ⟨1, 2, 3⟩

theorem metrics_window_bound_witness :
    (∀ p ∈ sampleRun, p.now ≠ 0) ∧ MAX_MEASUREMENTS < sampleRun.length ∧
    (recordAll initMetrics sampleRun).segmentationTimes.length = MAX_MEASUREMENTS :=
  ⟨by decide, by decide, (metrics_window_bound sampleRun (by decide) (by decide)).2.1⟩

/-- C9: for every window state and positive targetFps, the fps shown by
updateMetricsDisplay is 1000 divided by the mean inter-frame delta, clamped
at the source frame rate, and it never exceeds the source frame rate. -/
theorem fps_clamp (s : MetricsState) (targetFps : ℚ) (ht : 0 < targetFps) :
    (avgFrameTime s ≠ 0 →
        displayFps s targetFps = min targetFps (1000 / avgFrameTime s)) ∧
    displayFps s targetFps ≤ targetFps := by
  have ht0 : targetFps ≠ 0 := ne_of_gt ht
  constructor
  · intro h
    simp [displayFps, ht0, h]
  · by_cases h : avgFrameTime s ≠ 0
    · simp only [displayFps, ht0, ne_eq, not_false_eq_true, if_true, h]
      exact min_le_left _ _
    · simp only [displayFps, ht0, ne_eq, not_false_eq_true, if_true, h, if_false]
      exact min_le_of_left_le le_rfl

theorem fps_clamp_witness :
    (0:ℚ) < 30 ∧
      displayFps { initMetrics with frameTimes := [20, 40], lastFrameTime := 60 } 30 ≤ 30 :=
  ⟨by norm_num, (fps_clamp { initMetrics with frameTimes := [20, 40], lastFrameTime := 60 } 30
    (by norm_num)).2⟩

/-! ## MediaPipe adapter

Embeds MediaPipeModel: fields segmenter (non-null), isInitialized,
lastResults, processingFrame, loadingPromise (none before the first init
call, some true / some false once that call has resolved / rejected),
skippedFrames and maxSkippedFrames.  Mask results are abstract tokens. -/

/-- What a processFrame call draws on the output canvas. -/
inductive Drawn
  | rawVideo
  | composited (results : ℕ)
  deriving Repr, DecidableEq

/-- Outcome of the awaited segmenter.send: the call throws, or it completes
with the onResults callback having delivered fresh results or not. -/
inductive SendOutcome
  | throws
  | ok (delivered : Option ℕ)
  deriving Repr, DecidableEq

structure MediaPipeState where
  segmenter : Bool
  isInitialized : Bool
  lastResults : Option ℕ
  processingFrame : Bool
  loadingPromise : Option Bool
  skippedFrames : ℕ
  maxSkippedFrames : ℕ
  deriving Repr, DecidableEq

/-- The constructor state of MediaPipeModel. -/
def mpNew : MediaPipeState :=
  { segmenter := false
    isInitialized := false
    lastResults := none
    processingFrame := false
    loadingPromise := none
    skippedFrames := 0
    maxSkippedFrames := 1 }

/-- Result of one processFrame call: the post state, what was drawn,
whether a segmenter.send request was issued, and whether the reported
segmentationTime is the zero placeholder. -/
structure ProcessResult where
  state : MediaPipeState
  drawn : Drawn
  issuedSend : Bool
  segmentationTimeZero : Bool
  deriving Repr, DecidableEq

/-- MediaPipeModel.processFrame, path by path: the not-initialized early return,
the frame-skip path, the still-processing reuse path, then the inference path
whose send either throws (caught) or completes with or without results.
The onResults callback stores delivered results and clears processingFrame. -/
def mpProcessFrame (s : MediaPipeState) (o : SendOutcome) : ProcessResult :=
  if !s.isInitialized || !s.segmenter then
    ⟨s, .rawVideo, false, true⟩
  else if s.skippedFrames < s.maxSkippedFrames then
    let s' := { s with skippedFrames := s.skippedFrames + 1 }
    match s.lastResults with
    | some r => ⟨s', .composited r, false, true⟩
    | none => ⟨s', .rawVideo, false, true⟩
  else
    let s0 := { s with skippedFrames := 0 }
    if s0.processingFrame then
      match s0.lastResults with
      | some r => ⟨s0, .composited r, false, true⟩
      | none => ⟨s0, .rawVideo, false, true⟩
    else
      let s1 := { s0 with processingFrame := true }
      match o with
      | .throws => ⟨{ s1 with processingFrame := false }, .rawVideo, true, true⟩
      | .ok delivered =>
          let s2 :=
            match delivered with
            | some r => { s1 with lastResults := some r, processingFrame := false }
            | none => s1
          match s2.lastResults with
          | none => ⟨{ s2 with processingFrame := false }, .rawVideo, true, true⟩
          | some r => ⟨{ s2 with processingFrame := false }, .composited r, true, false⟩

/-- Outcome of an init call. -/
inductive InitOutcome
  | success
  | failure
  deriving Repr, DecidableEq

/-- Result of an init call: post state, outcome, and whether a new
SelfieSegmentation instance was constructed by this call. -/
structure MpInitResult where
  state : MediaPipeState
  outcome : InitOutcome
  allocated : Bool
  deriving Repr, DecidableEq

/-- MediaPipeModel.init: if loadingPromise is already set, return it (no new
allocation); otherwise allocate the segmenter inside a promise cached in
loadingPromise, which resolves true on success and rejects on failure. -/
def mpInit (s : MediaPipeState) (o : InitOutcome) : MpInitResult :=
  match s.loadingPromise with
  | some cached => ⟨s, if cached then .success else .failure, false⟩
  | none =>
      match o with
      | .success =>
          ⟨{ s with loadingPromise := some true, segmenter := true, isInitialized := true },
            .success, true⟩
      | .failure =>
          ⟨{ s with loadingPromise := some false, isInitialized := false }, .failure, true⟩

/-! ## BodyPix adapter init -/

structure BodyPixState where
  model : Option ℕ
  isInitialized : Bool
  deriving Repr, DecidableEq

/-- Result of a BodyPix init call: post state, outcome, and whether this call
invoked bodyPix.load (allocating a model instance on success). -/
structure BpInitResult where
  state : BodyPixState
  outcome : InitOutcome
  calledLoad : Bool
  deriving Repr, DecidableEq

/-- BodyPixModel.init: unconditionally calls bodyPix.load and overwrites
this.model with the freshly loaded instance; there is no cached-promise guard. -/
def bodyPixInit (s : BodyPixState) (o : InitOutcome) (freshModel : ℕ) : BpInitResult :=
  match o with
  | .success => ⟨{ model := some freshModel, isInitialized := true }, .success, true⟩
  | .failure => ⟨s, .failure, true⟩

/-! ## Capture loop, small-step view

processVideoFrames as a transition system: a tick is one firing of the
requestAnimationFrame callback (or the direct call from toggle), which can
only happen while a callback is scheduled; a settle is the resolution of the
awaited applyVirtualBackground, whose then/catch handler schedules the next
tick.  outstanding counts unsettled processFrame invocations on the active
backend. -/

structure LoopState where
  enabled : Bool
  activeModel : Bool
  lastProcessedVideoTime : ℚ
  scheduled : Bool
  pending : Bool
  outstanding : ℕ
  deriving Repr, DecidableEq

inductive LoopEvent
  | tick (t : ℚ)
  | settle
  deriving Repr, DecidableEq

/-- One transition of the capture loop; none when the event cannot occur.
A tick consumes the scheduled callback; the disabled branch cancels, the
duplicate-frame branch reschedules immediately without processing, and the
processing branch records the new frame time and starts applyVirtualBackground
(which invokes processFrame exactly when an active model is present).
A settle finishes the awaited call and schedules the next tick. -/
def loopStep (s : LoopState) (e : LoopEvent) : Option LoopState :=
  match e with
  | .tick t =>
      if !s.scheduled then none
      else if !s.enabled then
        some { s with scheduled := false }
      else if s.lastProcessedVideoTime = t then
        some { s with scheduled := true }
      else
        some { s with
                scheduled := false
                lastProcessedVideoTime := t
                pending := true
                outstanding := s.outstanding + (if s.activeModel then 1 else 0) }
  | .settle =>
      if !s.pending then none
      else
        some { s with
                pending := false
                scheduled := true
                outstanding := s.outstanding - (if s.activeModel then 1 else 0) }

/-- The loop state right after toggle enables the effect and calls
processVideoFrames: frame tracking reset to -1 and the first iteration
about to run. -/
def loopInit (m : Bool) : LoopState :=
  { enabled := true
    activeModel := m
    lastProcessedVideoTime := -1
    scheduled := true
    pending := false
    outstanding := 0 }

/-- States reachable from an enabling of the effect. -/
inductive LoopReachable : LoopState → Prop
  | init (m : Bool) : LoopReachable (loopInit m)
  | step {s s' : LoopState} (e : LoopEvent) :
      LoopReachable s → loopStep s e = some s' → LoopReachable s'

/-- The inductive invariant: while a processFrame is awaited no further tick is
scheduled, and the outstanding count is exactly determined by that. -/
def loopInv (s : LoopState) : Prop :=
  (s.pending = true → s.scheduled = false) ∧
  s.outstanding = (if s.pending = true ∧ s.activeModel = true then 1 else 0)

theorem loopInv_step {s s' : LoopState} (e : LoopEvent) (h : loopStep s e = some s')
    (hinv : loopInv s) : loopInv s' := by
  obtain ⟨ih1, ih2⟩ := hinv
  cases e with
  | tick t =>
      unfold loopStep at h
      cases hpd : s.pending with
      | true =>
          rw [ih1 hpd] at h
          simp at h
      | false =>
          simp only [hpd, Bool.false_eq_true, false_and, if_false] at ih2
          cases hsch : s.scheduled with
          | false =>
              rw [hsch] at h
              simp at h
          | true =>
              rw [hsch] at h
              cases hen : s.enabled with
              | false =>
                  rw [hen] at h
                  simp at h
                  subst h
                  refine ⟨fun _ => rfl, ?_⟩
                  simp [hpd, ih2]
              | true =>
                  rw [hen] at h
                  by_cases hlt : s.lastProcessedVideoTime = t
                  · simp [hlt] at h
                    subst h
                    refine ⟨fun hp => ?_, ?_⟩
                    · simp [hpd] at hp
                    · simp [hpd, ih2]
                  · simp [hlt] at h
                    subst h
                    refine ⟨fun _ => rfl, ?_⟩
                    cases ham : s.activeModel with
                    | false => simp [ham, ih2]
                    | true => simp [ham, ih2]
  | settle =>
      unfold loopStep at h
      cases hpd : s.pending with
      | false =>
          rw [hpd] at h
          simp at h
      | true =>
          rw [hpd] at h
          simp at h
          subst h
          refine ⟨fun hp => ?_, ?_⟩
          · simp at hp
          · simp only [hpd, true_and] at ih2
            simp only [Bool.false_eq_true, false_and, if_false]
            cases ham : s.activeModel with
            | false =>
                rw [ham] at ih2
                simp at ih2
                simp [ham, ih2]
            | true =>
                rw [ham] at ih2
                simp at ih2
                simp [ham, ih2]

theorem loopReachable_inv : ∀ s, LoopReachable s → loopInv s := by
  intro s h
  induction h with
  | init m => exact ⟨fun hp => by simp [loopInit] at hp, by simp [loopInit]⟩
  | step e _ heq ih => exact loopInv_step e heq ih

/-- C1: at most one segmentation call is ever in flight.  First conjunct: in
every state the capture loop can reach while enabled, the number of
outstanding processFrame invocations is at most 1, because the loop only
schedules the next tick after the awaited call settles.  Second conjunct: a
MediaPipe processFrame call that finds the in-flight flag set issues no new
segmenter.send request, and (when initialized, with cached results present and
the frame-skip budget spent) reuses the last completed results. -/
theorem single_inflight :
    (∀ s, LoopReachable s → s.outstanding ≤ 1) ∧
    (∀ (m : MediaPipeState) (o : SendOutcome), m.processingFrame = true →
      (mpProcessFrame m o).issuedSend = false ∧
      (∀ r, m.isInitialized = true → m.segmenter = true →
        m.maxSkippedFrames ≤ m.skippedFrames → m.lastResults = some r →
        (mpProcessFrame m o).drawn = .composited r)) := by
  constructor
  · intro s hs
    have h := (loopReachable_inv s hs).2
    rw [h]
    split <;> omega
  · intro m o hflag
    unfold mpProcessFrame
    constructor
    · split
      · rfl
      · split
        · split <;> rfl
        · simp only [hflag, if_true]
          split <;> rfl
    · intro r hinit hseg hskip hlast
      simp only [hinit, hseg, Bool.not_true, Bool.or_self, Bool.false_eq_true, if_false]
      have hns : ¬ (m.skippedFrames < m.maxSkippedFrames) := by omega
      simp only [hns, if_false, hflag, if_true, hlast]

theorem single_inflight_witness :
    (loopInit true).outstanding ≤ 1 ∧
    (mpProcessFrame ⟨true, true, some 5, true, some true, 1, 1⟩ (.ok none)).issuedSend = false :=
  ⟨single_inflight.1 (loopInit true) (.init true),
    (single_inflight.2 ⟨true, true, some 5, true, some true, 1, 1⟩ (.ok none) rfl).1⟩

/-- C10 counterexample: a settled processFrame call that took the
still-processing reuse path leaves processingFrame true, not false — the flag
on that path belongs to the outstanding call, so the claim that every exit
path leaves the flag false fails on the still-processing path. -/
theorem mp_reuse_path_flag_stays_set :
    (mpProcessFrame ⟨true, true, some 0, true, some true, 1, 1⟩
      (.ok none)).state.processingFrame = true := by decide

/-- C10 amended: every processFrame call entered with the in-flight flag clear
leaves it clear on every exit path (frame-skip, not-initialized, no-results,
success and caught-error); only a call that found the flag already set — set by
the still-outstanding call that will clear it — returns with it still true. -/
theorem mp_processingFrame_released (s : MediaPipeState) (o : SendOutcome)
    (h : s.processingFrame = false) :
    (mpProcessFrame s o).state.processingFrame = false := by
  unfold mpProcessFrame
  by_cases h1 : (!s.isInitialized || !s.segmenter) = true
  · simp only [h1, if_true]
    exact h
  · simp only [h1, if_false]
    by_cases h2 : s.skippedFrames < s.maxSkippedFrames
    · simp only [h2, if_true]
      cases s.lastResults <;> simpa using h
    · simp only [h2, if_false, h]
      simp only [Bool.false_eq_true, if_false]
      cases o with
      | throws => rfl
      | ok delivered =>
          cases delivered with
          | none =>
              simp only []
              split <;> rfl
          | some r => rfl

theorem mp_processingFrame_released_witness :
    (mpNew.processingFrame = false) ∧
      (mpProcessFrame mpNew .throws).state.processingFrame = false :=
  ⟨rfl, mp_processingFrame_released mpNew .throws rfl⟩

/-- C8 counterexample: two successive BodyPix init calls both invoke
bodyPix.load; the second call creates a second model instance, overwriting the
first, instead of returning the completed initialization. -/
theorem bodyPixInit_double_allocates :
    (bodyPixInit ⟨none, false⟩ .success 1).calledLoad = true ∧
    (bodyPixInit (bodyPixInit ⟨none, false⟩ .success 1).state .success 2).calledLoad = true ∧
    (bodyPixInit ⟨none, false⟩ .success 1).state.model = some 1 ∧
    (bodyPixInit (bodyPixInit ⟨none, false⟩ .success 1).state .success 2).state.model
      = some 2 := by decide

/-- C8 amended: the MediaPipe adapter's init is idempotent — a second call
(also one issued while the first is still pending) returns the cached
loadingPromise outcome without allocating a second segmenter and without
changing state — while the BodyPix adapter's init re-runs loading on every
call. -/
theorem mpInit_idempotent (s : MediaPipeState) (o o' : InitOutcome)
    (h : s.loadingPromise = none) :
    (mpInit s o).allocated = true ∧
    (mpInit (mpInit s o).state o').allocated = false ∧
    (mpInit (mpInit s o).state o').outcome = (mpInit s o).outcome ∧
    (mpInit (mpInit s o).state o').state = (mpInit s o).state := by
  cases o <;> simp [mpInit, h]

theorem mpInit_idempotent_witness :
    mpNew.loadingPromise = none ∧
      (mpInit (mpInit mpNew .success).state .failure).allocated = false :=
  ⟨rfl, (mpInit_idempotent mpNew .success .failure rfl).2.1⟩

/-! ## Background model factory

Embeds BackgroundModelFactory: the availableModels table (implementation
status per id), setUserPreferredModel validation, _selectOptimalModel and
createModel dispatch.  Model ids are strings, lowercased as the source does
with toLowerCase. -/

/-- ASCII lowercasing as applied by toLowerCase to the model-id strings. -/
def jsToLowerCase (s : String) : String := ⟨s.data.map Char.toLower⟩

structure ModelConfig where
  simdRequired : Bool
  deriving Repr, DecidableEq

structure FactoryState where
  simdSupport : Bool
  devicePerformance : String
  userPreferredModel : Option String
  userPreferredConfig : Option ModelConfig
  deriving Repr, DecidableEq

/-- The isImplemented flag of the availableModels entry for an id;
none when the id is not in the table. -/
def availableModelsImplemented (id : String) : Option Bool :=
  if id = "mediapipe" then some true
  else if id = "bodypix" then some true
  else if id = "mlkit" then some false
  else if id = "meet" then some false
  else none

/-- setUserPreferredModel(modelType, config): reject unknown ids, reject
unimplemented models, reject SIMD-requiring configs without SIMD support;
otherwise store the preference and report true. -/
def setUserPreferredModel (s : FactoryState) (modelType : String) (config : ModelConfig) :
    FactoryState × Bool :=
  match availableModelsImplemented (jsToLowerCase modelType) with
  | none => (s, false)
  | some implemented =>
      if !implemented then (s, false)
      else if config.simdRequired && !s.simdSupport then (s, false)
      else
        ({ s with
            userPreferredModel := some (jsToLowerCase modelType)
            userPreferredConfig := some config }, true)

/-- _selectOptimalModel: every branch currently recommends mediapipe. -/
def selectOptimalModel (s : FactoryState) : String :=
  if s.devicePerformance = "high" && s.simdSupport then "mediapipe"
  else if s.devicePerformance = "medium" then "mediapipe"
  else "mediapipe"

/-- The adapter class a createModel call instantiates. -/
inductive CreatedModel
  | mediaPipeInstance
  | bodyPixInstance
  deriving Repr, DecidableEq

/-- createModel(modelType): substitute the user preference for auto, auto-select
if still auto, then dispatch on the lowercased id — the switch has cases for
mediapipe and bodypix only, and its default falls back to MediaPipe. -/
def createModel (s : FactoryState) (modelType : String) : CreatedModel :=
  let mt :=
    match s.userPreferredModel with
    | some m => if modelType = "auto" then m else modelType
    | none => modelType
  let mt2 := if mt = "auto" then selectOptimalModel s else mt
  if jsToLowerCase mt2 = "mediapipe" then .mediaPipeInstance
  else if jsToLowerCase mt2 = "bodypix" then .bodyPixInstance
  else .mediaPipeInstance

/-- C6 counterexample: mlkit is a known but unimplemented model, so an explicit
selection of it must fail — yet createModel with the explicit id mlkit silently
instantiates MediaPipe instead of failing. -/
theorem createModel_silent_fallback :
    availableModelsImplemented (jsToLowerCase "mlkit") = some false ∧
    createModel ⟨true, "high", none, none⟩ "mlkit" = .mediaPipeInstance := by decide

/-- C6 amended: the selection entry point setUserPreferredModel rejects every
request for an unknown model, an unimplemented model, or a SIMD-requiring
config on a host without SIMD support, returning false and leaving the factory
state — hence the running backend — unchanged; the createModel dispatch,
however, silently falls back to MediaPipe on an explicit unknown or
unimplemented id. -/
theorem setUserPreferredModel_rejects (s : FactoryState) (modelType : String)
    (config : ModelConfig)
    (h : availableModelsImplemented (jsToLowerCase modelType) = none ∨
         availableModelsImplemented (jsToLowerCase modelType) = some false ∨
         (config.simdRequired = true ∧ s.simdSupport = false)) :
    setUserPreferredModel s modelType config = (s, false) := by
  unfold setUserPreferredModel
  rcases h with h | h | ⟨h1, h2⟩
  · rw [h]
  · rw [h]
    simp
  · cases himpl : availableModelsImplemented (jsToLowerCase modelType) with
    | none => rfl
    | some implemented =>
        cases implemented with
        | false => simp
        | true => simp [h1, h2]

theorem setUserPreferredModel_rejects_witness :
    (availableModelsImplemented (jsToLowerCase "mlkit") = some false) ∧
      setUserPreferredModel ⟨false, "low", none, none⟩ "mlkit" ⟨false⟩
        = (⟨false, "low", none, none⟩, false) :=
  ⟨by decide, setUserPreferredModel_rejects ⟨false, "low", none, none⟩ "mlkit" ⟨false⟩
    (Or.inr (Or.inl (by decide)))⟩

/-! ## Virtual background service

Embeds initVirtualBackground from the background service: the
virtualBackground record, loadSelectedModel, applyVirtualBackground,
processVideoFrames and both branches of toggle.  Model instances are
tokens; externally visible effects (alerts, dispose calls, track
replacement, processFrame invocations) are recorded as actions. -/

inductive TrackKind
  | camera
  | canvas
  deriving Repr, DecidableEq

/-- What the output canvas currently shows. -/
inductive CanvasContent
  | initial
  | rawFrame (t : ℚ)
  | modelOutput (t : ℚ)
  deriving Repr, DecidableEq

/-- Externally visible effects of the service. -/
inductive SvcAction
  | disposeModel (id : ℕ)
  | alertError
  | alertSuccess
  | debugLog
  | replaceSenderTrack (k : TrackKind)
  | requestFrame
  | processFrameCall (t : ℚ)
  | startLoop
  deriving Repr, DecidableEq

/-- The virtualBackground record plus the transport facts toggle touches:
whether the original stream was saved, whether a peer connection with a video
sender exists, and which track that sender currently carries. -/
structure VBState where
  enabled : Bool
  activeModel : Option ℕ
  metrics : MetricsState
  lastProcessedVideoTime : ℚ
  animationFrame : Bool
  canvas : CanvasContent
  stream : Bool
  canvasStream : Bool
  hasPeerConnection : Bool
  hasVideoSender : Bool
  senderTrack : TrackKind
  localVideoShowsOriginalStream : Bool
  metricsUpdatesRunning : Bool
  deriving Repr, DecidableEq

/-- Outcome of the awaited activeModel.processFrame call for one tick. -/
inductive ProcessOracle
  | throws
  | ok (segTime totalTime : ℚ)
  deriving Repr, DecidableEq

/-- applyVirtualBackground: nothing when disabled or without a model; otherwise
invoke processFrame on the active model — on completion record metrics and
request a canvas-stream frame, on error log, draw the unmodified source frame
and still request a frame. -/
def applyVirtualBackground (s : VBState) (t now : ℚ) (o : ProcessOracle) :
    VBState × List SvcAction :=
  if !s.enabled || s.activeModel = none then (s, [])
  else
    match o with
    | .ok segTime totalTime =>
        ({ s with
            canvas := .modelOutput t
            metrics := updatePerformanceMetrics s.metrics segTime totalTime now },
          [.processFrameCall t] ++ (if s.canvasStream then [.requestFrame] else []))
    | .throws =>
        ({ s with canvas := .rawFrame t },
          [.processFrameCall t, .debugLog] ++ (if s.canvasStream then [.requestFrame] else []))

/-- One firing of the processVideoFrames callback with the video's currentTime t:
cancel when disabled; poll again without processing when the video has not
advanced; otherwise record the new time, apply the background, and schedule the
next tick from the then/catch handler. -/
def processVideoFramesTick (s : VBState) (t now : ℚ) (o : ProcessOracle) :
    VBState × List SvcAction :=
  if !s.enabled then ({ s with animationFrame := false }, [])
  else if s.lastProcessedVideoTime = t then ({ s with animationFrame := true }, [])
  else
    let s1 := { s with lastProcessedVideoTime := t }
    let r := applyVirtualBackground s1 t now o
    ({ r.1 with animationFrame := true }, r.2)

/-- A tick input: the video currentTime, the wall clock, and how processFrame
resolves. -/
structure TickInput where
  t : ℚ
  now : ℚ
  o : ProcessOracle
  deriving Repr, DecidableEq

/-- Run a sequence of animation-frame firings; a tick can only fire while a
callback is scheduled. -/
def runTicks (s : VBState) (ticks : List TickInput) : VBState × List SvcAction :=
  match ticks with
  | [] => (s, [])
  | tk :: rest =>
      if s.animationFrame then
        let r1 := processVideoFramesTick s tk.t tk.now tk.o
        let r2 := runTicks r1.1 rest
        (r2.1, r1.2 ++ r2.2)
      else
        runTicks s rest

/-- The frame times at which processFrame was actually invoked. -/
def processedTimes (acts : List SvcAction) : List ℚ :=
  acts.filterMap (fun a =>
    match a with
    | .processFrameCall t => some t
    | _ => none)

theorem processedTimes_append (a b : List SvcAction) :
    processedTimes (a ++ b) = processedTimes a ++ processedTimes b := by
  unfold processedTimes
  rw [List.filterMap_append]

theorem tick_disabled (s : VBState) (t now : ℚ) (o : ProcessOracle) (h : s.enabled = false) :
    processVideoFramesTick s t now o = ({ s with animationFrame := false }, []) := by
  unfold processVideoFramesTick
  rw [h]
  rfl

theorem tick_skip (s : VBState) (t now : ℚ) (o : ProcessOracle) (h : s.enabled = true)
    (hd : s.lastProcessedVideoTime = t) :
    processVideoFramesTick s t now o = ({ s with animationFrame := true }, []) := by
  unfold processVideoFramesTick
  rw [h, hd]
  simp

theorem tick_no_model (s : VBState) (t now : ℚ) (o : ProcessOracle) (h : s.enabled = true)
    (hd : s.lastProcessedVideoTime ≠ t) (hm : s.activeModel = none) :
    processVideoFramesTick s t now o =
      ({ s with lastProcessedVideoTime := t, animationFrame := true }, []) := by
  unfold processVideoFramesTick applyVirtualBackground
  rw [h]
  simp only [Bool.not_true, Bool.false_eq_true, if_false, hd, if_false, hm, if_true,
    Bool.or_true]
  rfl

theorem tick_process (s : VBState) (t now : ℚ) (o : ProcessOracle) (h : s.enabled = true)
    (hd : s.lastProcessedVideoTime ≠ t) (hm : s.activeModel ≠ none) :
    processVideoFramesTick s t now o =
      (match o with
        | .ok segTime totalTime =>
            ({ s with
                lastProcessedVideoTime := t
                canvas := .modelOutput t
                metrics := updatePerformanceMetrics s.metrics segTime totalTime now
                animationFrame := true },
              [.processFrameCall t] ++ (if s.canvasStream then [.requestFrame] else []))
        | .throws =>
            ({ s with lastProcessedVideoTime := t, canvas := .rawFrame t, animationFrame := true },
              [.processFrameCall t, .debugLog] ++
                (if s.canvasStream then [.requestFrame] else []))) := by
  unfold processVideoFramesTick applyVirtualBackground
  rw [h]
  simp only [Bool.not_true, Bool.false_eq_true, if_false, hd, if_false, hm, if_true,
    Bool.or_false]
  cases o <;> rfl

theorem runTicks_no_model (ticks : List TickInput) : ∀ s : VBState, s.activeModel = none →
    processedTimes (runTicks s ticks).2 = [] ∧ (runTicks s ticks).1.activeModel = none := by
  induction ticks with
  | nil =>
      intro s hm
      exact ⟨rfl, hm⟩
  | cons tk rest ih =>
      intro s hm
      unfold runTicks
      by_cases haf : s.animationFrame = true
      · simp only [haf, if_true]
        cases hen : s.enabled with
        | false =>
            rw [tick_disabled s tk.t tk.now tk.o hen]
            exact ih { s with animationFrame := false } hm
        | true =>
            by_cases hdup : s.lastProcessedVideoTime = tk.t
            · rw [tick_skip s tk.t tk.now tk.o hen hdup]
              exact ih { s with animationFrame := true } hm
            · rw [tick_no_model s tk.t tk.now tk.o hen hdup hm]
              exact ih { s with lastProcessedVideoTime := tk.t, animationFrame := true } hm
      · simp only [haf, if_false]
        exact ih s hm

theorem runTicks_chain (ticks : List TickInput) : ∀ s : VBState,
    List.Chain' (fun a b => a ≠ b)
      (s.lastProcessedVideoTime :: processedTimes (runTicks s ticks).2) := by
  induction ticks with
  | nil =>
      intro s
      simp [runTicks, processedTimes]
  | cons tk rest ih =>
      intro s
      unfold runTicks
      by_cases haf : s.animationFrame = true
      · simp only [haf, if_true]
        cases hen : s.enabled with
        | false =>
            rw [tick_disabled s tk.t tk.now tk.o hen]
            exact ih { s with animationFrame := false }
        | true =>
            by_cases hdup : s.lastProcessedVideoTime = tk.t
            · rw [tick_skip s tk.t tk.now tk.o hen hdup]
              exact ih { s with animationFrame := true }
            · by_cases hm : s.activeModel = none
              · rw [tick_no_model s tk.t tk.now tk.o hen hdup hm]
                have hrest := runTicks_no_model rest
                  { s with lastProcessedVideoTime := tk.t, animationFrame := true } hm
                simp only [List.nil_append, hrest.1]
                simp
              · rw [tick_process s tk.t tk.now tk.o hen hdup hm]
                cases ho : tk.o with
                | ok segTime totalTime =>
                    have hchain := ih { s with
                      lastProcessedVideoTime := tk.t
                      canvas := .modelOutput tk.t
                      metrics := updatePerformanceMetrics s.metrics segTime totalTime tk.now
                      animationFrame := true }
                    simp only [processedTimes_append]
                    have hpt : processedTimes
                        ([.processFrameCall tk.t] ++ (if s.canvasStream then [.requestFrame] else []))
                        = [tk.t] := by
                      by_cases hcs : s.canvasStream <;> simp [hcs, processedTimes]
                    rw [processedTimes_append] at hpt
                    rw [hpt, List.cons_append, List.nil_append, List.chain'_cons]
                    exact ⟨hdup, hchain⟩
                | throws =>
                    have hchain := ih { s with
                      lastProcessedVideoTime := tk.t
                      canvas := .rawFrame tk.t
                      animationFrame := true }
                    simp only [processedTimes_append]
                    have hpt : processedTimes
                        ([.processFrameCall tk.t, .debugLog] ++
                          (if s.canvasStream then [.requestFrame] else []))
                        = [tk.t] := by
                      by_cases hcs : s.canvasStream <;> simp [hcs, processedTimes]
                    rw [processedTimes_append] at hpt
                    rw [hpt, List.cons_append, List.nil_append, List.chain'_cons]
                    exact ⟨hdup, hchain⟩
      · simp only [haf, if_false]
        exact ih s

/-- C4: on a tick whose video currentTime equals the last processed time, the
loop reschedules and leaves everything else — in particular the canvas, which
keeps showing the previous output — unchanged, invoking nothing; and across any
run of ticks, processFrame is never invoked twice in a row for the same frame
time, so each distinct source frame gets at most one inference attempt. -/
theorem duplicate_frame_guard :
    (∀ (s : VBState) (t now : ℚ) (o : ProcessOracle),
        s.enabled = true → s.lastProcessedVideoTime = t →
        processVideoFramesTick s t now o = ({ s with animationFrame := true }, [])) ∧
    (∀ (s : VBState) (ticks : List TickInput),
        List.Chain' (fun a b => a ≠ b)
          (s.lastProcessedVideoTime :: processedTimes (runTicks s ticks).2)) := by
  constructor
  · intro s t now o hen hdup
    unfold processVideoFramesTick
    simp [hen, hdup]
  · intro s ticks
    exact runTicks_chain ticks s

/-- A concrete running service state used to evaluate the capture loop. -/
def vbDemo : VBState :=
  { enabled := true
    activeModel := some 1
    metrics := { initMetrics with
      totalProcessedFrames := 3
      segmentationTimes := [7]
      frameTimes := [33]
      lastFrameTime := 50 }
    lastProcessedVideoTime := 4
    animationFrame := true
    canvas := .modelOutput 4
    stream := true
    canvasStream := true
    hasPeerConnection := true
    hasVideoSender := true
    senderTrack := .canvas
    localVideoShowsOriginalStream := true
    metricsUpdatesRunning := true }

theorem duplicate_frame_guard_witness :
    processVideoFramesTick vbDemo 4 100 (.ok 1 2) = ({ vbDemo with animationFrame := true }, []) :=
  duplicate_frame_guard.1 vbDemo 4 100 (.ok 1 2) rfl rfl

/-- C3 counterexample: a tick on which processFrame throws changes only the
last-processed time and the canvas (now the unmodified source frame) and emits
only the processFrame invocation, a debug log and the frame request — the
complete post state shows no error counter exists to be incremented, and no
alert reaches the UI. -/
theorem process_error_full_state :
    processVideoFramesTick vbDemo 5 100 .throws =
      ({ vbDemo with lastProcessedVideoTime := 5, canvas := .rawFrame 5 },
        [.processFrameCall 5, .debugLog, .requestFrame]) := by decide

/-- C3 amended: a failing processFrame degrades to drawing the unmodified
source frame for that tick only, the loop keeps scheduling, the effect stays
enabled, the metrics are untouched, and no error ever surfaces to the UI (the
service keeps no error counter and no error-rate threshold; the failure is
only debug-logged). -/
theorem process_error_recovery (s : VBState) (t now : ℚ)
    (hen : s.enabled = true) (hm : s.activeModel ≠ none)
    (hnew : s.lastProcessedVideoTime ≠ t) :
    (processVideoFramesTick s t now .throws).1.canvas = .rawFrame t ∧
    (processVideoFramesTick s t now .throws).1.animationFrame = true ∧
    (processVideoFramesTick s t now .throws).1.metrics = s.metrics ∧
    (processVideoFramesTick s t now .throws).1.enabled = true ∧
    SvcAction.alertError ∉ (processVideoFramesTick s t now .throws).2 ∧
    SvcAction.alertSuccess ∉ (processVideoFramesTick s t now .throws).2 := by
  unfold processVideoFramesTick applyVirtualBackground
  simp only [hen, Bool.not_true, Bool.false_eq_true, if_false, hnew, hm, if_true,
    Bool.or_false]
  by_cases hcs : s.canvasStream = true
  · simp [hcs, hen]
  · simp [hcs, hen]

theorem process_error_recovery_witness :
    (vbDemo.enabled = true ∧ vbDemo.activeModel ≠ none ∧ vbDemo.lastProcessedVideoTime ≠ 5) ∧
      (processVideoFramesTick vbDemo 5 100 .throws).1.canvas = .rawFrame 5 :=
  ⟨⟨rfl, by decide, by decide⟩, (process_error_recovery vbDemo 5 100 rfl (by decide)
    (by decide)).1⟩

/-! ## toggle -/

/-- How loadSelectedModel resolves: the factory can be missing, createModel can
fail to produce a model, and init can reject or resolve. -/
inductive LoadOracle
  | factoryMissing
  | createFailed
  | initFailed (id : ℕ)
  | initOk (id : ℕ)
  deriving Repr, DecidableEq

/-- Whether the oracle is one of the failure modes. -/
def LoadOracle.failed : LoadOracle → Bool
  | .initOk _ => false
  | _ => true

/-- loadSelectedModel: dispose any current model, then create and init a new
one via the factory; every failure mode is caught, debug-logged and surfaced
as an error alert, returning false; success alerts success and returns true. -/
def loadSelectedModel (s : VBState) (o : LoadOracle) : VBState × Bool × List SvcAction :=
  let disposeActs :=
    match s.activeModel with
    | some id => [SvcAction.disposeModel id]
    | none => []
  match o with
  | .factoryMissing => (s, false, disposeActs ++ [.debugLog, .alertError])
  | .createFailed => ({ s with activeModel := none }, false, disposeActs ++ [.debugLog, .alertError])
  | .initFailed id =>
      ({ s with activeModel := some id }, false, disposeActs ++ [.debugLog, .alertError])
  | .initOk id => ({ s with activeModel := some id }, true, disposeActs ++ [.alertSuccess])

/-- The enabling branch of toggle: reset metrics and frame tracking, start
metric updates, load the model — on failure flip enabled back off and return
without starting the frame loop — on success create the canvas stream, save
the original stream, replace the sender track when a peer connection with a
video sender exists, and start processing frames. -/
def toggleOn (s : VBState) (o : LoadOracle) : VBState × List SvcAction :=
  let s1 := { s with
    enabled := true
    metrics := initMetrics
    lastProcessedVideoTime := -1
    metricsUpdatesRunning := true }
  let r := loadSelectedModel s1 o
  if !r.2.1 then
    ({ r.1 with enabled := false }, r.2.2)
  else
    ({ r.1 with
        canvasStream := true
        stream := true
        senderTrack :=
          if r.1.hasPeerConnection && r.1.hasVideoSender then .canvas else r.1.senderTrack
        animationFrame := true },
      r.2.2 ++ (if r.1.hasPeerConnection && r.1.hasVideoSender
        then [SvcAction.replaceSenderTrack .canvas] else []) ++ [.startLoop])

/-- The disabling branch of toggle: stop metric updates, restore the original
stream to the local video and the camera track to the video sender when they
exist, and cancel the scheduled animation frame.  The active model is not
touched. -/
def toggleOff (s : VBState) : VBState × List SvcAction :=
  let s1 := { s with enabled := false, metricsUpdatesRunning := false }
  let r :=
    if s1.stream then
      ({ s1 with
          senderTrack :=
            if s1.hasPeerConnection && s1.hasVideoSender then .camera else s1.senderTrack
          localVideoShowsOriginalStream := true },
        if s1.hasPeerConnection && s1.hasVideoSender
          then [SvcAction.replaceSenderTrack .camera] else [])
    else (s1, ([] : List SvcAction))
  ({ r.1 with animationFrame := false }, r.2)

/-- C5: when enabling the effect and model loading or initialization fails in
any way, toggle resets enabled to false, does not start the frame-processing
loop (no scheduling is set up), and an error alert is surfaced to the user. -/
theorem toggleOn_init_failure (s : VBState) (o : LoadOracle) (h : o.failed = true) :
    (toggleOn s o).1.enabled = false ∧
    SvcAction.startLoop ∉ (toggleOn s o).2 ∧
    (toggleOn s o).1.animationFrame = s.animationFrame ∧
    SvcAction.alertError ∈ (toggleOn s o).2 := by
  cases o with
  | factoryMissing =>
      refine ⟨rfl, ?_, rfl, ?_⟩ <;>
        cases hm : s.activeModel <;> simp [toggleOn, loadSelectedModel, hm]
  | createFailed =>
      refine ⟨rfl, ?_, rfl, ?_⟩ <;>
        cases hm : s.activeModel <;> simp [toggleOn, loadSelectedModel, hm]
  | initFailed id =>
      refine ⟨rfl, ?_, rfl, ?_⟩ <;>
        cases hm : s.activeModel <;> simp [toggleOn, loadSelectedModel, hm]
  | initOk id => simp [LoadOracle.failed] at h

theorem toggleOn_init_failure_witness :
    (LoadOracle.initFailed 3).failed = true ∧
      (toggleOn { vbDemo with enabled := false } (.initFailed 3)).1.enabled = false :=
  ⟨rfl, (toggleOn_init_failure { vbDemo with enabled := false } (.initFailed 3) rfl).1⟩

/-- C7 counterexample: disabling the effect from a concrete running state
replaces the sender track with the camera but emits no dispose call, and the
active model instance is still attached afterwards — the backend is not
disposed on stop. -/
theorem toggleOff_no_dispose :
    (toggleOff vbDemo).2 = [SvcAction.replaceSenderTrack .camera] ∧
    (toggleOff vbDemo).1.activeModel = some 1 := by decide

/-- C7 amended: disabling the effect restores the call transport — the sender
carries the camera track again and the local video shows the original stream —
stops metric updates and cancels frame scheduling, but retains the active
backend instance undisposed (it is only disposed by the next model load). -/
theorem toggleOff_restores (s : VBState)
    (hstream : s.stream = true) (hpc : s.hasPeerConnection = true)
    (hvs : s.hasVideoSender = true) :
    (toggleOff s).1.senderTrack = .camera ∧
    SvcAction.replaceSenderTrack .camera ∈ (toggleOff s).2 ∧
    (toggleOff s).1.localVideoShowsOriginalStream = true ∧
    (toggleOff s).1.animationFrame = false ∧
    (toggleOff s).1.enabled = false ∧
    (toggleOff s).1.metricsUpdatesRunning = false ∧
    (toggleOff s).1.activeModel = s.activeModel ∧
    (∀ id, SvcAction.disposeModel id ∉ (toggleOff s).2) := by
  unfold toggleOff
  simp [hstream, hpc, hvs]

theorem toggleOff_restores_witness :
    (vbDemo.stream = true ∧ vbDemo.hasPeerConnection = true ∧ vbDemo.hasVideoSender = true) ∧
      (toggleOff vbDemo).1.senderTrack = .camera :=
  ⟨⟨rfl, rfl, rfl⟩, (toggleOff_restores vbDemo rfl rfl rfl).1⟩

end SegLab
